import Mathlib

/-!
# Verification of the go-libs structured-logging facade

A shallow embedding of the `Stasky745/go-libs` repository: three near-identical
copies of a zap-based logging facade (`golog/golog.go`, `log/log.go`, and the
unnamed file `src/unnamed/part_000`, also `package log`).  The copies share
their `Logger`, `NewLogger`, `InitLogger`, `GetLogger` and leveled logging
functions verbatim; they differ only in the `CheckErr` helper, which is
embedded once per copy (`golog.CheckErr`, `logpkg.CheckErr*` for `log/log.go`,
`logu.CheckErr` for `part_000`).

Modelling conventions:
* A Go `error` argument is `Option String` (`none` = nil, `some e` = a non-nil
  error whose `Error()` text is `e`).
* A Go `interface{}` value is a `Value`; a `*http.Response` is `Value.resp rid`
  where `rid` indexes a heap of response-body states.
* `httputil.DumpResponse(resp, true)` is stateful in Go (it drains and restores
  the body); the heap assigns each response a finite script of successive dump
  results.  A trailing successful entry repeats (a drained healthy body re-dumps
  to the same text); a failing entry is consumed by the read that failed.
* The zap sugared logger is modelled by `emit`: a leveled call appends one
  `Record` to the log when the configured threshold enables its level.
  `Panicw`/`Panicf` panic after emitting; `DPanic*` panics only when the
  configuration is a development one; `Fatal*` stops the process.
* A run outcome distinguishes normal return, a zap panic, `os.Exit` from
  `Fatal`, and the nil-pointer dereference that happens when a package-level
  function runs before `InitLogger` (then `GetLogger()` is nil and
  `GetLogger().sugaredLogger` panics).
-/

namespace Golibs

/-- zap's log levels in zap's order (Debug < Info < Warn < Error < DPanic <
Panic < Fatal). -/
inductive LogLevel where
  | debug
  | info
  | warn
  | error
  | dpanic
  | panic
  | fatal
deriving DecidableEq, Repr

/-- Numeric rank of a level (zap uses Debug = -1 .. Fatal = 5; shifted by one
to 0 .. 6). -/
def levelNat : LogLevel → Nat
  | .debug => 0
  | .info => 1
  | .warn => 2
  | .error => 3
  | .dpanic => 4
  | .panic => 5
  | .fatal => 6

/-- The part of a `zap.Config` the facade fixes: the level threshold, the
encoding, and whether the config is a development one (which decides what
`DPanic` does). -/
structure Config where
  level : LogLevel
  encoding : String
  development : Bool
deriving DecidableEq, Repr

/-- Models `zap.NewDevelopmentConfig()`: debug threshold, console encoding,
development mode (source comment: "Defaults to DebugLevel"). -/
def NewDevelopmentConfig : Config :=
  { level := .debug, encoding := "console", development := true }

/-- Models `zap.NewProductionConfig()`: info threshold, JSON encoding,
production mode (source comment: "Defaults to InfoLevel"). -/
def NewProductionConfig : Config :=
  { level := .info, encoding := "json", development := false }

/-- The config `NewLogger` builds: the development or production default, with
the encoding then set explicitly, as in all three `NewLogger` copies. -/
def NewLoggerConfig (isDevelopment : Bool) : Config :=
  if isDevelopment then { NewDevelopmentConfig with encoding := "console" }
  else { NewProductionConfig with encoding := "json" }

/-- zap's level gate: a record at level `lvl` is written iff `lvl` is at or
above the configured threshold. -/
def enabled (c : Config) (lvl : LogLevel) : Bool :=
  decide (levelNat c.level ≤ levelNat lvl)

/-- The facade's `Logger` struct.  In Go it wraps a `*zap.SugaredLogger`; the
sugared logger's observable behaviour here is determined by the config it was
built from, so the wrapper carries that config. -/
structure Logger where
  config : Config
deriving DecidableEq, Repr

/-- `NewLogger` of all three copies: pick the development or production config,
set the encoding, build.  `config.Build()` fails only for reasons outside this
model (invalid sink paths), so the build step is modelled as succeeding. -/
def NewLogger (isDevelopment : Bool) : Except String Logger :=
  .ok { config := NewLoggerConfig isDevelopment }

/-- The package-level globals `once` and `logger` shared by the copies:
whether the `sync.Once` has fired, and the `*Logger` pointer (`none` = nil). -/
structure GlobalState where
  onceDone : Bool
  logger : Option Logger
deriving DecidableEq, Repr

/-- The process-start state: `once` not fired, `logger` nil. -/
def initialGlobal : GlobalState := { onceDone := false, logger := none }

/-- `InitLogger` of all three copies: `once.Do` runs the construction only if
it has not fired yet; on a build error the Go code panics (dead in this model
because `NewLogger` always succeeds), and `once` is marked fired either way. -/
def InitLogger (isDevelopment : Bool) (g : GlobalState) : GlobalState :=
  if g.onceDone then g
  else
    { onceDone := true,
      logger :=
        match NewLogger isDevelopment with
        | .ok l => some l
        | .error _ => none }

/-- `GetLogger` of all three copies: read the global pointer. -/
def GetLogger (g : GlobalState) : Option Logger := g.logger

/-- The global state right after a first `InitLogger isDevelopment` at process
start. -/
def mkInit (isDevelopment : Bool) : GlobalState :=
  InitLogger isDevelopment initialGlobal

/-- One result of `httputil.DumpResponse(resp, true)`: the dumped text, or the
error the body read produced. -/
inductive DumpRes where
  | ok (s : String)
  | fail (e : String)
deriving DecidableEq, Repr

/-- A runtime `interface{}` value as the facade observes it: a string, an
`error` (by its text), a `*http.Response` (by heap id), or a `[]interface{}`
passed as a single argument. -/
inductive Value where
  | str (s : String)
  | errv (e : String)
  | resp (rid : Nat)
  | list (vs : List Value)

/-- Whether a value is a `*http.Response` (the `value.(*http.Response)` type
assertion). -/
def Value.isResp : Value → Bool
  | .resp _ => true
  | _ => false

/-- Response-body states: `h.get rid` is the script of successive dump results
still ahead for response `rid`. -/
abbrev Heap := List (List DumpRes)

/-- One dump against a script.  A lone successful entry repeats (a drained
healthy body restores itself, so re-dumping gives the same text, and an
exhausted script dumps as empty); a failed entry is consumed by the read that
produced it. -/
def dumpScriptStep : List DumpRes → DumpRes × List DumpRes
  | [] => (.ok "", [])
  | [DumpRes.ok s] => (.ok s, [.ok s])
  | r :: rest => (r, rest)

/-- `httputil.DumpResponse(resp, true)` for response `rid`: consume one step of
its script.  An id outside the heap stands for a response with an empty healthy
body. -/
def dumpResp (h : Heap) (rid : Nat) : DumpRes × Heap :=
  match h[rid]? with
  | none => (.ok "", h)
  | some script =>
    match dumpScriptStep script with
    | (r, script') => (r, h.set rid script')

/-- A heap on which every dump succeeds: response `rid` always dumps to
`oh.get rid` (or `""` outside the list). -/
def mkOkHeap (oh : List String) : Heap := oh.map fun s => [DumpRes.ok s]

/-- A structured log record: level, message, and the raw argument list the
sugared call received. -/
structure Record where
  level : LogLevel
  msg : String
  fields : List Value

/-- The mutable world a call sees: response-body states and the records
written so far. -/
structure LogState where
  heap : Heap
  records : List Record

/-- A sugared leveled write: append the record when the configured threshold
enables the level, else drop it. -/
def emit (l : Logger) (st : LogState) (lvl : LogLevel) (msg : String)
    (fields : List Value) : LogState :=
  if enabled l.config lvl then
    { st with records := st.records ++ [⟨lvl, msg, fields⟩] }
  else st

/-- How many records of the given level a log holds. -/
def countAtLevel (lvl : LogLevel) (rs : List Record) : Nat :=
  (rs.filter fun r => r.level == lvl).length

/-- How a package-level logging call ends: normal return, a zap panic
(`Panic*`, or `DPanic*` on a development config), `os.Exit(1)` from `Fatal*`,
or the nil-pointer dereference of running before `InitLogger`. -/
inductive CallOutcome where
  | ok
  | panicked
  | fatalStop
  | nilDeref
deriving DecidableEq, Repr

/-- How a `CheckErr` call ends: its boolean return, a panic, or the nil
dereference of an uninitialized logger. -/
inductive Outcome where
  | ok (b : Bool)
  | panicked
  | nilDeref
deriving DecidableEq, Repr

/-- Renders a value the way fmt's `%v` verb would, to the precision the facade
needs: strings and error texts print as themselves; the composite renderings
are abbreviated (no theorem relies on them). -/
def valueText : Value → String
  | .str s => s
  | .errv e => e
  | .resp rid => "&response-" ++ toString rid
  | .list _ => "[slice]"

/-- `fmt.Sprintf`-style formatting over the `%s` and `%v` verbs the facade
uses: scan the template, substituting the next argument at each such verb. -/
def gofmtAux : List Char → List Value → List Char
  | [], _ => []
  | '%' :: c :: rest, a :: args =>
    if c == 's' || c == 'v' then (valueText a).toList ++ gofmtAux rest args
    else '%' :: c :: gofmtAux rest (a :: args)
  | c :: rest, args => c :: gofmtAux rest args

/-- `fmt.Sprintf` over the verbs the facade uses. -/
def gofmt (template : String) (args : List Value) : String :=
  String.mk (gofmtAux template.toList args)

/-! ### The package-level leveled functions

Textually identical in `golog/golog.go`, `log/log.go` and `part_000`: each
reads the global logger (`GetLogger().sugaredLogger` — a nil dereference
before initialization) and forwards to the corresponding sugared method. -/

/-- `Info`: `GetLogger().sugaredLogger.Infow(msg, keysAndValues...)`. -/
def Info (g : GlobalState) (msg : String) (keysAndValues : List Value)
    (st : LogState) : CallOutcome × LogState :=
  match GetLogger g with
  | none => (.nilDeref, st)
  | some l => (.ok, emit l st .info msg keysAndValues)

/-- `Debug`: forwards to `Debugw`. -/
def Debug (g : GlobalState) (msg : String) (keysAndValues : List Value)
    (st : LogState) : CallOutcome × LogState :=
  match GetLogger g with
  | none => (.nilDeref, st)
  | some l => (.ok, emit l st .debug msg keysAndValues)

/-- `Warn`: forwards to `Warnw`. -/
def Warn (g : GlobalState) (msg : String) (keysAndValues : List Value)
    (st : LogState) : CallOutcome × LogState :=
  match GetLogger g with
  | none => (.nilDeref, st)
  | some l => (.ok, emit l st .warn msg keysAndValues)

/-- `Error`: forwards to `Errorw`. -/
def Error (g : GlobalState) (msg : String) (keysAndValues : List Value)
    (st : LogState) : CallOutcome × LogState :=
  match GetLogger g with
  | none => (.nilDeref, st)
  | some l => (.ok, emit l st .error msg keysAndValues)

/-- `Fatal`: forwards to `Fatalw`, which writes the record and then calls
`os.Exit(1)`. -/
def Fatal (g : GlobalState) (msg : String) (keysAndValues : List Value)
    (st : LogState) : CallOutcome × LogState :=
  match GetLogger g with
  | none => (.nilDeref, st)
  | some l => (.fatalStop, emit l st .fatal msg keysAndValues)

/-- `Panic`: forwards to `Panicw`, which writes the record and then panics. -/
def Panic (g : GlobalState) (msg : String) (keysAndValues : List Value)
    (st : LogState) : CallOutcome × LogState :=
  match GetLogger g with
  | none => (.nilDeref, st)
  | some l => (.panicked, emit l st .panic msg keysAndValues)

/-- `Debugf`: forwards to `Debugf` with a format template. -/
def Debugf (g : GlobalState) (template : String) (args : List Value)
    (st : LogState) : CallOutcome × LogState :=
  match GetLogger g with
  | none => (.nilDeref, st)
  | some l => (.ok, emit l st .debug (gofmt template args) [])

/-- `Infof`: forwards to `Infof`. -/
def Infof (g : GlobalState) (template : String) (args : List Value)
    (st : LogState) : CallOutcome × LogState :=
  match GetLogger g with
  | none => (.nilDeref, st)
  | some l => (.ok, emit l st .info (gofmt template args) [])

/-- `Warnf`: forwards to `Warnf`. -/
def Warnf (g : GlobalState) (template : String) (args : List Value)
    (st : LogState) : CallOutcome × LogState :=
  match GetLogger g with
  | none => (.nilDeref, st)
  | some l => (.ok, emit l st .warn (gofmt template args) [])

/-- `Errorf`: forwards to `Errorf`. -/
def Errorf (g : GlobalState) (template : String) (args : List Value)
    (st : LogState) : CallOutcome × LogState :=
  match GetLogger g with
  | none => (.nilDeref, st)
  | some l => (.ok, emit l st .error (gofmt template args) [])

/-- `Fatalf`: forwards to `Fatalf` (record, then `os.Exit(1)`). -/
def Fatalf (g : GlobalState) (template : String) (args : List Value)
    (st : LogState) : CallOutcome × LogState :=
  match GetLogger g with
  | none => (.nilDeref, st)
  | some l => (.fatalStop, emit l st .fatal (gofmt template args) [])

/-- `Panicf`: forwards to `Panicf` (record, then panic). -/
def Panicf (g : GlobalState) (template : String) (args : List Value)
    (st : LogState) : CallOutcome × LogState :=
  match GetLogger g with
  | none => (.nilDeref, st)
  | some l => (.panicked, emit l st .panic (gofmt template args) [])

namespace golog

/-- `CheckErr` of `golog/golog.go` (signature `(err, message, panic)`): on a
non-nil error, `DPanicf("%s: %v", message, err)` when the flag is set — which
panics right there on a development config — then `Errorf("%s: %v", message,
err)` and `return true`; `false` on a nil error.  Both calls dereference the
global logger. -/
def CheckErr (g : GlobalState) (err : Option String) (message : String)
    (p : Bool) (st : LogState) : Outcome × LogState :=
  match err with
  | none => (.ok false, st)
  | some e =>
    match GetLogger g with
    | none => (.nilDeref, st)
    | some l =>
      if p then
        let st1 := emit l st .dpanic (gofmt "%s: %v" [.str message, .errv e]) []
        if l.config.development then (.panicked, st1)
        else (.ok true, emit l st1 .error (gofmt "%s: %v" [.str message, .errv e]) [])
      else (.ok true, emit l st .error (gofmt "%s: %v" [.str message, .errv e]) [])

end golog

namespace logu

/-- The `for i := 1; i < len(keysAndValues); i += 2` loop of `part_000`'s
`CheckErr`: walk the value positions; a `*http.Response` value is dumped, a
successful dump replaces the slice element in place, a failed dump is reported
with `Warnw("Failed to dump HTTP response", "error", dumpErr)` and the raw
response element is left as it was.  Returns the slice after the loop, the
state, and whether `GetLogger().sugaredLogger.Warnw` dereferenced a nil
logger (the panic aborts the loop there). -/
def processPairs (lg : Option Logger) :
    List Value → LogState → List Value × LogState × Bool
  | [], st => ([], st, false)
  | [k], st => ([k], st, false)
  | k :: v :: rest, st =>
    match v with
    | .resp rid =>
      match dumpResp st.heap rid with
      | (.ok s, h') =>
        let r := processPairs lg rest { st with heap := h' }
        (k :: .str s :: r.1, r.2)
      | (.fail e, h') =>
        match lg with
        | none => (k :: v :: rest, { st with heap := h' }, true)
        | some l =>
          let st1 :=
            emit l { st with heap := h' } .warn "Failed to dump HTTP response"
              [.str "error", .errv e]
          let r := processPairs lg rest st1
          (k :: v :: r.1, r.2)
    | _ =>
      let r := processPairs lg rest st
      (k :: v :: r.1, r.2)

/-- `CheckErr` of `src/unnamed/part_000` (signature
`(err, shouldPanic, message, keysAndValues...)`): nil error returns false at
once; otherwise an odd-length context is padded with `"<missing value>"`, the
value positions are processed in place (`processPairs`), `"error", err` is
prepended, and the final message is written with `Panicw` — which panics — when
the flag is set, else with `Errorw`, returning true.  Besides the outcome and
state it returns the key/value slice as the loop left it (the in-place
mutation a caller can observe). -/
def CheckErr (g : GlobalState) (err : Option String) (shouldPanic : Bool)
    (message : String) (keysAndValues : List Value) (st : LogState) :
    Outcome × List Value × LogState :=
  match err with
  | none => (.ok false, keysAndValues, st)
  | some e =>
    let kvs :=
      if keysAndValues.length % 2 ≠ 0 then keysAndValues ++ [.str "<missing value>"]
      else keysAndValues
    match processPairs (GetLogger g) kvs st with
    | (kvs2, st2, true) => (.nilDeref, kvs2, st2)
    | (kvs2, st2, false) =>
      let finalKvs := Value.str "error" :: Value.errv e :: kvs2
      match GetLogger g with
      | none => (.nilDeref, kvs2, st2)
      | some l =>
        if shouldPanic then (.panicked, kvs2, emit l st2 .panic message finalKvs)
        else (.ok true, kvs2, emit l st2 .error message finalKvs)

/-- The content of the caller's slice after `logu.CheckErr` returns, for a
slice passed variadically (`s...`) at full capacity (`len == cap`, the case of
a slice literal): with an even length no `append` runs, the loop writes into
the caller's backing array, and the caller sees the processed slice; with an
odd length the padding `append` reallocates, the loop writes into the copy,
and the caller's slice is untouched.  (With spare capacity Go would pad in
place; that case is outside this model.) -/
def callerSliceAfter (g : GlobalState) (err : Option String)
    (shouldPanic : Bool) (message : String) (keysAndValues : List Value)
    (st : LogState) : List Value :=
  if keysAndValues.length % 2 == 0 then
    (CheckErr g err shouldPanic message keysAndValues st).2.1
  else keysAndValues

end logu

namespace logpkg

/-- Intermediate result of `log/log.go`'s key/value loop: the loop finished
with the new slice, or a nil-logger dereference happened inside it (in the
recursive `CheckErr` a failed dump triggers). -/
inductive LoopRes where
  | deref (st : LogState)
  | done (nkv : List Value) (st : LogState)

mutual

/-- `CheckErr` of `log/log.go` (signature
`(err, panic, message, keysAndValues...)`): on a non-nil error it builds
`newKeysAndValues` pair by pair (`loopFuel`), prepends `"error", err`, and
calls `Panicw(message, newKeysAndValues)` — note: the slice is passed as a
single argument, not spread — when the flag is set (which panics), else
`Errorw(message, newKeysAndValues)`, returning true.  A failed response dump
inside the loop re-enters `CheckErr` recursively, so the evaluation carries
fuel; `none` means the fuel ran out, every `some` is a run the Go code
actually performs. -/
def checkErrFuel (g : GlobalState) (fuel : Nat) (err : Option String)
    (p : Bool) (message : String) (keysAndValues : List Value)
    (st : LogState) : Option (Outcome × LogState) :=
  match err with
  | none => some (.ok false, st)
  | some e =>
    match fuel with
    | 0 => none
    | fuel' + 1 =>
      match loopFuel g fuel' keysAndValues st with
      | none => none
      | some (.deref st') => some (.nilDeref, st')
      | some (.done nkv st') =>
        let finalKvs := Value.str "error" :: Value.errv e :: nkv
        match GetLogger g with
        | none => some (.nilDeref, st')
        | some l =>
          if p then some (.panicked, emit l st' .panic message [.list finalKvs])
          else some (.ok true, emit l st' .error message [.list finalKvs])

/-- The `for i := 0; i < len(keysAndValues); i += 2` loop of `log/log.go`'s
`CheckErr`: take a key and its value (defaulting a missing last value to
`"<missing value>"`); a response value is dumped — on success the pair
`(key, string(dump))` is appended; on failure the code calls
`CheckErr(dumpErr, false, "can't dump HTTP response", "response", resp)`
(which logs the failure and returns true, re-dumping the same response on the
way) and appends `(key, fmt.Sprintf("Error dumping response: %v", dumpErr))`;
any other value is passed through.  (On a successful dump the guard calls
`CheckErr(nil, ...)`, which returns false with no effect, so it is elided.) -/
def loopFuel (g : GlobalState) (fuel : Nat) (kvs : List Value)
    (st : LogState) : Option LoopRes :=
  match kvs with
  | [] => some (.done [] st)
  | [k] => some (.done [k, .str "<missing value>"] st)
  | k :: v :: rest =>
    match v with
    | .resp rid =>
      match dumpResp st.heap rid with
      | (.ok s, h') =>
        match loopFuel g fuel rest { st with heap := h' } with
        | none => none
        | some (.deref st') => some (.deref st')
        | some (.done nkv st') => some (.done (k :: .str s :: nkv) st')
      | (.fail e, h') =>
        match checkErrFuel g fuel (some e) false "can\x27t dump HTTP response"
            [.str "response", .resp rid] { st with heap := h' } with
        | none => none
        | some (.nilDeref, st1) => some (.deref st1)
        | some (_, st1) =>
          match loopFuel g fuel rest st1 with
          | none => none
          | some (.deref st') => some (.deref st')
          | some (.done nkv st') =>
            some (.done (k :: .str ("Error dumping response: " ++ e) :: nkv) st')
    | _ =>
      match loopFuel g fuel rest st with
      | none => none
      | some (.deref st') => some (.deref st')
      | some (.done nkv st') => some (.done (k :: v :: nkv) st')

end

end logpkg

/-- Recursion principle matching the key/value loops: empty, a dangling key,
or a key/value pair in front. -/
def pairRec {motive : List Value → Prop} (hnil : motive [])
    (hone : ∀ k, motive [k])
    (hcons : ∀ k v rest, motive rest → motive (k :: v :: rest)) :
    ∀ kvs, motive kvs
  | [] => hnil
  | [k] => hone k
  | k :: v :: rest => hcons k v rest (pairRec hnil hone hcons rest)

/-! ## Helper lemmas -/

theorem list_set_self {α : Type} : ∀ (l : List α) (i : Nat) (x : α),
    l[i]? = some x → l.set i x = l
  | [], i, x, h => by simp at h
  | a :: l, 0, x, h => by simp at h; simp [List.set, h]
  | a :: l, i + 1, x, h => by
    simp at h
    simp [List.set, list_set_self l i x h]

theorem emit_records (l : Logger) (st : LogState) (lvl : LogLevel)
    (msg : String) (fields : List Value) :
    (emit l st lvl msg fields).records =
      st.records ++ (if enabled l.config lvl then [⟨lvl, msg, fields⟩] else []) := by
  unfold emit; split <;> simp

theorem emit_heap (l : Logger) (st : LogState) (lvl : LogLevel)
    (msg : String) (fields : List Value) :
    (emit l st lvl msg fields).heap = st.heap := by
  unfold emit; split <;> simp

theorem dumpResp_okHeap_some (oh : List String) (rid : Nat) (s : String)
    (h : oh[rid]? = some s) : dumpResp (mkOkHeap oh) rid = (.ok s, mkOkHeap oh) := by
  unfold dumpResp mkOkHeap
  rw [List.getElem?_map, h]
  simp [dumpScriptStep]
  apply list_set_self
  rw [List.getElem?_map, h]
  rfl

theorem dumpResp_okHeap_none (oh : List String) (rid : Nat)
    (h : oh[rid]? = none) : dumpResp (mkOkHeap oh) rid = (.ok "", mkOkHeap oh) := by
  unfold dumpResp mkOkHeap
  rw [List.getElem?_map, h]
  rfl

theorem countAtLevel_append (lvl : LogLevel) (a b : List Record) :
    countAtLevel lvl (a ++ b) = countAtLevel lvl a + countAtLevel lvl b := by
  simp [countAtLevel, List.filter_append]

theorem countAtLevel_of_none (lvl : LogLevel) (ws : List Record)
    (h : ∀ w ∈ ws, w.level ≠ lvl) : countAtLevel lvl ws = 0 := by
  simp only [countAtLevel, List.length_eq_zero]
  rw [List.filter_eq_nil_iff]
  intro w hw
  simpa using h w hw

theorem getLogger_mkInit (d : Bool) :
    GetLogger (mkInit d) = some ⟨NewLoggerConfig d⟩ := rfl

theorem enabled_warn (d : Bool) : enabled (NewLoggerConfig d) .warn = true := by
  cases d <;> rfl

theorem enabled_error (d : Bool) : enabled (NewLoggerConfig d) .error = true := by
  cases d <;> rfl

theorem enabled_dpanic (d : Bool) : enabled (NewLoggerConfig d) .dpanic = true := by
  cases d <;> rfl

theorem enabled_panic (d : Bool) : enabled (NewLoggerConfig d) .panic = true := by
  cases d <;> rfl

/-- `part_000`'s key/value loop on a heap where every dump succeeds: the state
comes back untouched (no warning written, every consumed script entry
restored), no nil dereference, the slice keeps its length, keys stay put,
non-response values pass through, and every value-position response is
replaced by its dump text. -/
theorem logu_processPairs_okHeap (l : Logger) (oh : List String) :
    ∀ (kvs : List Value) (st : LogState), st.heap = mkOkHeap oh →
      ∃ kvs2, logu.processPairs (some l) kvs st = (kvs2, st, false)
        ∧ kvs2.length = kvs.length
        ∧ (∀ i, i % 2 = 0 → i < kvs.length → kvs2[i]? = kvs[i]?)
        ∧ (∀ i u, i % 2 = 1 → kvs[i]? = some u → u.isResp = false → kvs2[i]? = some u)
        ∧ (∀ i rid s, i % 2 = 1 → kvs[i]? = some (.resp rid) → oh[rid]? = some s →
            kvs2[i]? = some (.str s))
        ∧ (∀ i rid, i % 2 = 1 → kvs[i]? = some (.resp rid) → oh[rid]? = none →
            kvs2[i]? = some (.str "")) := by
  intro kvs
  induction kvs using pairRec with
  | hnil =>
    intro st hst
    refine ⟨[], rfl, rfl, ?_, ?_, ?_, ?_⟩
    · intro i _ hi; simp at hi
    · intro i u _ hu _; simp at hu
    · intro i rid s _ hv _; simp at hv
    · intro i rid _ hv _; simp at hv
  | hone k =>
    intro st hst
    refine ⟨[k], rfl, rfl, ?_, ?_, ?_, ?_⟩
    · intro i _ hi
      simp at hi
      subst hi; rfl
    · intro i u h1 hu _
      rcases i with _ | i
      · omega
      · simp at hu
    · intro i rid s h1 hv _
      rcases i with _ | i
      · omega
      · simp at hv
    · intro i rid h1 hv _
      rcases i with _ | i
      · omega
      · simp at hv
  | hcons k v rest ih =>
    intro st hst
    have hst2 : ({ st with heap := mkOkHeap oh } : LogState) = st := by rw [← hst]
    cases v with
    | str s0 =>
      obtain ⟨kvs2, hp, hlen, hk, hnr, hrs, hrn⟩ := ih st hst
      refine ⟨k :: .str s0 :: kvs2, ?_, ?_, ?_, ?_, ?_, ?_⟩
      · simp [logu.processPairs, hp]
      · simp [hlen]
      · intro i h0 hi
        rcases i with _ | (_ | i)
        · rfl
        · omega
        · simp only [List.getElem?_cons_succ]
          exact hk i (by omega) (by simp at hi ⊢; omega)
      · intro i u h1 hu hru
        rcases i with _ | (_ | i)
        · omega
        · simp at hu ⊢; exact hu
        · simp only [List.getElem?_cons_succ] at hu ⊢
          exact hnr i u (by omega) hu hru
      · intro i rid s h1 hv hos
        rcases i with _ | (_ | i)
        · omega
        · simp at hv
        · simp only [List.getElem?_cons_succ] at hv ⊢
          exact hrs i rid s (by omega) hv hos
      · intro i rid h1 hv hon
        rcases i with _ | (_ | i)
        · omega
        · simp at hv
        · simp only [List.getElem?_cons_succ] at hv ⊢
          exact hrn i rid (by omega) hv hon
    | errv e0 =>
      obtain ⟨kvs2, hp, hlen, hk, hnr, hrs, hrn⟩ := ih st hst
      refine ⟨k :: .errv e0 :: kvs2, ?_, ?_, ?_, ?_, ?_, ?_⟩
      · simp [logu.processPairs, hp]
      · simp [hlen]
      · intro i h0 hi
        rcases i with _ | (_ | i)
        · rfl
        · omega
        · simp only [List.getElem?_cons_succ]
          exact hk i (by omega) (by simp at hi ⊢; omega)
      · intro i u h1 hu hru
        rcases i with _ | (_ | i)
        · omega
        · simp at hu ⊢; exact hu
        · simp only [List.getElem?_cons_succ] at hu ⊢
          exact hnr i u (by omega) hu hru
      · intro i rid s h1 hv hos
        rcases i with _ | (_ | i)
        · omega
        · simp at hv
        · simp only [List.getElem?_cons_succ] at hv ⊢
          exact hrs i rid s (by omega) hv hos
      · intro i rid h1 hv hon
        rcases i with _ | (_ | i)
        · omega
        · simp at hv
        · simp only [List.getElem?_cons_succ] at hv ⊢
          exact hrn i rid (by omega) hv hon
    | list vs =>
      obtain ⟨kvs2, hp, hlen, hk, hnr, hrs, hrn⟩ := ih st hst
      refine ⟨k :: .list vs :: kvs2, ?_, ?_, ?_, ?_, ?_, ?_⟩
      · simp [logu.processPairs, hp]
      · simp [hlen]
      · intro i h0 hi
        rcases i with _ | (_ | i)
        · rfl
        · omega
        · simp only [List.getElem?_cons_succ]
          exact hk i (by omega) (by simp at hi ⊢; omega)
      · intro i u h1 hu hru
        rcases i with _ | (_ | i)
        · omega
        · simp at hu ⊢; exact hu
        · simp only [List.getElem?_cons_succ] at hu ⊢
          exact hnr i u (by omega) hu hru
      · intro i rid s h1 hv hos
        rcases i with _ | (_ | i)
        · omega
        · simp at hv
        · simp only [List.getElem?_cons_succ] at hv ⊢
          exact hrs i rid s (by omega) hv hos
      · intro i rid h1 hv hon
        rcases i with _ | (_ | i)
        · omega
        · simp at hv
        · simp only [List.getElem?_cons_succ] at hv ⊢
          exact hrn i rid (by omega) hv hon
    | resp rid =>
      obtain ⟨kvs2, hp, hlen, hk, hnr, hrs, hrn⟩ := ih st hst
      rcases hor : oh[rid]? with _ | s0
      · have hd : dumpResp st.heap rid = (.ok "", mkOkHeap oh) := by
          rw [hst]; exact dumpResp_okHeap_none oh rid hor
        refine ⟨k :: .str "" :: kvs2, ?_, ?_, ?_, ?_, ?_, ?_⟩
        · simp [logu.processPairs, hd, hst2, hp]
        · simp [hlen]
        · intro i h0 hi
          rcases i with _ | (_ | i)
          · rfl
          · omega
          · simp only [List.getElem?_cons_succ]
            exact hk i (by omega) (by simp at hi ⊢; omega)
        · intro i u h1 hu hru
          rcases i with _ | (_ | i)
          · omega
          · simp at hu
            subst hu
            simp [Value.isResp] at hru
          · simp only [List.getElem?_cons_succ] at hu ⊢
            exact hnr i u (by omega) hu hru
        · intro i rid2 s h1 hv hos
          rcases i with _ | (_ | i)
          · omega
          · simp at hv
            rw [hv] at hor
            rw [hor] at hos
            exact absurd hos (by simp)
          · simp only [List.getElem?_cons_succ] at hv ⊢
            exact hrs i rid2 s (by omega) hv hos
        · intro i rid2 h1 hv hon
          rcases i with _ | (_ | i)
          · omega
          · simp
          · simp only [List.getElem?_cons_succ] at hv ⊢
            exact hrn i rid2 (by omega) hv hon
      · have hd : dumpResp st.heap rid = (.ok s0, mkOkHeap oh) := by
          rw [hst]; exact dumpResp_okHeap_some oh rid s0 hor
        refine ⟨k :: .str s0 :: kvs2, ?_, ?_, ?_, ?_, ?_, ?_⟩
        · simp [logu.processPairs, hd, hst2, hp]
        · simp [hlen]
        · intro i h0 hi
          rcases i with _ | (_ | i)
          · rfl
          · omega
          · simp only [List.getElem?_cons_succ]
            exact hk i (by omega) (by simp at hi ⊢; omega)
        · intro i u h1 hu hru
          rcases i with _ | (_ | i)
          · omega
          · simp at hu
            subst hu
            simp [Value.isResp] at hru
          · simp only [List.getElem?_cons_succ] at hu ⊢
            exact hnr i u (by omega) hu hru
        · intro i rid2 s h1 hv hos
          rcases i with _ | (_ | i)
          · omega
          · simp at hv
            rw [hv] at hor
            rw [hor] at hos
            simp at hos
            simp [hos]
          · simp only [List.getElem?_cons_succ] at hv ⊢
            exact hrs i rid2 s (by omega) hv hos
        · intro i rid2 h1 hv hon
          rcases i with _ | (_ | i)
          · omega
          · simp at hv
            rw [hv] at hor
            rw [hon] at hor
            exact absurd hor (by simp)
          · simp only [List.getElem?_cons_succ] at hv ⊢
            exact hrn i rid2 (by omega) hv hon

/-- `part_000`'s key/value loop with an initialized logger, over any heap:
it never dereferences nil, adds only warning-level records (one per failed
dump), and keeps the slice length. -/
theorem logu_processPairs_general (l : Logger) :
    ∀ (kvs : List Value) (st : LogState),
      ∃ kvs2 st2 ws, logu.processPairs (some l) kvs st = (kvs2, st2, false)
        ∧ st2.records = st.records ++ ws
        ∧ (∀ w ∈ ws, w.level = .warn)
        ∧ kvs2.length = kvs.length := by
  intro kvs
  induction kvs using pairRec with
  | hnil => intro st; exact ⟨[], st, [], rfl, by simp, by simp, rfl⟩
  | hone k => intro st; exact ⟨[k], st, [], rfl, by simp, by simp, rfl⟩
  | hcons k v rest ih =>
    intro st
    cases v with
    | str s0 =>
      obtain ⟨kvs2, st2, ws, hp, hrec, hws, hlen⟩ := ih st
      exact ⟨k :: .str s0 :: kvs2, st2, ws, by simp [logu.processPairs, hp],
        hrec, hws, by simp [hlen]⟩
    | errv e0 =>
      obtain ⟨kvs2, st2, ws, hp, hrec, hws, hlen⟩ := ih st
      exact ⟨k :: .errv e0 :: kvs2, st2, ws, by simp [logu.processPairs, hp],
        hrec, hws, by simp [hlen]⟩
    | list vs =>
      obtain ⟨kvs2, st2, ws, hp, hrec, hws, hlen⟩ := ih st
      exact ⟨k :: .list vs :: kvs2, st2, ws, by simp [logu.processPairs, hp],
        hrec, hws, by simp [hlen]⟩
    | resp rid =>
      rcases hd : dumpResp st.heap rid with ⟨r, h2⟩
      cases r with
      | ok s =>
        obtain ⟨kvs2, st2, ws, hp, hrec, hws, hlen⟩ := ih { st with heap := h2 }
        refine ⟨k :: .str s :: kvs2, st2, ws, ?_, ?_, hws, by simp [hlen]⟩
        · simp [logu.processPairs, hd, hp]
        · simpa using hrec
      | fail e =>
        obtain ⟨kvs2, st2, ws, hp, hrec, hws, hlen⟩ :=
          ih (emit l { st with heap := h2 } .warn "Failed to dump HTTP response"
            [.str "error", .errv e])
        refine ⟨k :: .resp rid :: kvs2, st2,
          (if enabled l.config .warn then
            [⟨.warn, "Failed to dump HTTP response", [.str "error", .errv e]⟩]
           else []) ++ ws, ?_, ?_, ?_, by simp [hlen]⟩
        · simp [logu.processPairs, hd, hp]
        · rw [hrec, emit_records]
          simp
        · intro w hw
          rcases List.mem_append.mp hw with hw1 | hw2
          · split at hw1
            · simp at hw1
              rw [hw1]
            · simp at hw1
          · exact hws w hw2

/-- `log/log.go`'s key/value loop on a heap where every dump succeeds: no
recursive `CheckErr` fires (so any fuel is enough), the state is untouched,
the built slice pairs every key with its value — padding a dangling key with
the placeholder — keys stay put, non-response values pass through, and every
value-position response is replaced by its dump text. -/
theorem logpkg_loopFuel_okHeap (g : GlobalState) (oh : List String) :
    ∀ (kvs : List Value) (fuel : Nat) (st : LogState), st.heap = mkOkHeap oh →
      ∃ nkv, logpkg.loopFuel g fuel kvs st = some (.done nkv st)
        ∧ nkv.length = 2 * ((kvs.length + 1) / 2)
        ∧ (∀ i, i % 2 = 0 → i < kvs.length → nkv[i]? = kvs[i]?)
        ∧ (∀ i u, i % 2 = 1 → kvs[i]? = some u → u.isResp = false → nkv[i]? = some u)
        ∧ (∀ i rid s, i % 2 = 1 → kvs[i]? = some (.resp rid) → oh[rid]? = some s →
            nkv[i]? = some (.str s))
        ∧ (∀ i rid, i % 2 = 1 → kvs[i]? = some (.resp rid) → oh[rid]? = none →
            nkv[i]? = some (.str "")) := by
  intro kvs
  induction kvs using pairRec with
  | hnil =>
    intro fuel st hst
    refine ⟨[], by simp [logpkg.loopFuel], rfl, ?_, ?_, ?_, ?_⟩
    · intro i _ hi; simp at hi
    · intro i u _ hu _; simp at hu
    · intro i rid s _ hv _; simp at hv
    · intro i rid _ hv _; simp at hv
  | hone k =>
    intro fuel st hst
    refine ⟨[k, .str "<missing value>"], by simp [logpkg.loopFuel], by simp, ?_, ?_, ?_, ?_⟩
    · intro i _ hi
      simp at hi
      subst hi; rfl
    · intro i u h1 hu _
      rcases i with _ | i
      · omega
      · simp at hu
    · intro i rid s h1 hv _
      rcases i with _ | i
      · omega
      · simp at hv
    · intro i rid h1 hv _
      rcases i with _ | i
      · omega
      · simp at hv
  | hcons k v rest ih =>
    intro fuel st hst
    have hst2 : ({ st with heap := mkOkHeap oh } : LogState) = st := by rw [← hst]
    cases v with
    | str s0 =>
      obtain ⟨nkv, hp, hlen, hk, hnr, hrs, hrn⟩ := ih fuel st hst
      refine ⟨k :: .str s0 :: nkv, ?_, ?_, ?_, ?_, ?_, ?_⟩
      · simp [logpkg.loopFuel, hp]
      · simp [hlen]; omega
      · intro i h0 hi
        rcases i with _ | (_ | i)
        · rfl
        · omega
        · simp only [List.getElem?_cons_succ]
          exact hk i (by omega) (by simp at hi ⊢; omega)
      · intro i u h1 hu hru
        rcases i with _ | (_ | i)
        · omega
        · simp at hu ⊢; exact hu
        · simp only [List.getElem?_cons_succ] at hu ⊢
          exact hnr i u (by omega) hu hru
      · intro i rid s h1 hv hos
        rcases i with _ | (_ | i)
        · omega
        · simp at hv
        · simp only [List.getElem?_cons_succ] at hv ⊢
          exact hrs i rid s (by omega) hv hos
      · intro i rid h1 hv hon
        rcases i with _ | (_ | i)
        · omega
        · simp at hv
        · simp only [List.getElem?_cons_succ] at hv ⊢
          exact hrn i rid (by omega) hv hon
    | errv e0 =>
      obtain ⟨nkv, hp, hlen, hk, hnr, hrs, hrn⟩ := ih fuel st hst
      refine ⟨k :: .errv e0 :: nkv, ?_, ?_, ?_, ?_, ?_, ?_⟩
      · simp [logpkg.loopFuel, hp]
      · simp [hlen]; omega
      · intro i h0 hi
        rcases i with _ | (_ | i)
        · rfl
        · omega
        · simp only [List.getElem?_cons_succ]
          exact hk i (by omega) (by simp at hi ⊢; omega)
      · intro i u h1 hu hru
        rcases i with _ | (_ | i)
        · omega
        · simp at hu ⊢; exact hu
        · simp only [List.getElem?_cons_succ] at hu ⊢
          exact hnr i u (by omega) hu hru
      · intro i rid s h1 hv hos
        rcases i with _ | (_ | i)
        · omega
        · simp at hv
        · simp only [List.getElem?_cons_succ] at hv ⊢
          exact hrs i rid s (by omega) hv hos
      · intro i rid h1 hv hon
        rcases i with _ | (_ | i)
        · omega
        · simp at hv
        · simp only [List.getElem?_cons_succ] at hv ⊢
          exact hrn i rid (by omega) hv hon
    | list vs =>
      obtain ⟨nkv, hp, hlen, hk, hnr, hrs, hrn⟩ := ih fuel st hst
      refine ⟨k :: .list vs :: nkv, ?_, ?_, ?_, ?_, ?_, ?_⟩
      · simp [logpkg.loopFuel, hp]
      · simp [hlen]; omega
      · intro i h0 hi
        rcases i with _ | (_ | i)
        · rfl
        · omega
        · simp only [List.getElem?_cons_succ]
          exact hk i (by omega) (by simp at hi ⊢; omega)
      · intro i u h1 hu hru
        rcases i with _ | (_ | i)
        · omega
        · simp at hu ⊢; exact hu
        · simp only [List.getElem?_cons_succ] at hu ⊢
          exact hnr i u (by omega) hu hru
      · intro i rid s h1 hv hos
        rcases i with _ | (_ | i)
        · omega
        · simp at hv
        · simp only [List.getElem?_cons_succ] at hv ⊢
          exact hrs i rid s (by omega) hv hos
      · intro i rid h1 hv hon
        rcases i with _ | (_ | i)
        · omega
        · simp at hv
        · simp only [List.getElem?_cons_succ] at hv ⊢
          exact hrn i rid (by omega) hv hon
    | resp rid =>
      obtain ⟨nkv, hp, hlen, hk, hnr, hrs, hrn⟩ := ih fuel st hst
      rcases hor : oh[rid]? with _ | s0
      · have hd : dumpResp st.heap rid = (.ok "", mkOkHeap oh) := by
          rw [hst]; exact dumpResp_okHeap_none oh rid hor
        refine ⟨k :: .str "" :: nkv, ?_, ?_, ?_, ?_, ?_, ?_⟩
        · simp [logpkg.loopFuel, hd, hst2, hp]
        · simp [hlen]; omega
        · intro i h0 hi
          rcases i with _ | (_ | i)
          · rfl
          · omega
          · simp only [List.getElem?_cons_succ]
            exact hk i (by omega) (by simp at hi ⊢; omega)
        · intro i u h1 hu hru
          rcases i with _ | (_ | i)
          · omega
          · simp at hu
            subst hu
            simp [Value.isResp] at hru
          · simp only [List.getElem?_cons_succ] at hu ⊢
            exact hnr i u (by omega) hu hru
        · intro i rid2 s h1 hv hos
          rcases i with _ | (_ | i)
          · omega
          · simp at hv
            rw [hv] at hor
            rw [hor] at hos
            exact absurd hos (by simp)
          · simp only [List.getElem?_cons_succ] at hv ⊢
            exact hrs i rid2 s (by omega) hv hos
        · intro i rid2 h1 hv hon
          rcases i with _ | (_ | i)
          · omega
          · simp
          · simp only [List.getElem?_cons_succ] at hv ⊢
            exact hrn i rid2 (by omega) hv hon
      · have hd : dumpResp st.heap rid = (.ok s0, mkOkHeap oh) := by
          rw [hst]; exact dumpResp_okHeap_some oh rid s0 hor
        refine ⟨k :: .str s0 :: nkv, ?_, ?_, ?_, ?_, ?_, ?_⟩
        · simp [logpkg.loopFuel, hd, hst2, hp]
        · simp [hlen]; omega
        · intro i h0 hi
          rcases i with _ | (_ | i)
          · rfl
          · omega
          · simp only [List.getElem?_cons_succ]
            exact hk i (by omega) (by simp at hi ⊢; omega)
        · intro i u h1 hu hru
          rcases i with _ | (_ | i)
          · omega
          · simp at hu
            subst hu
            simp [Value.isResp] at hru
          · simp only [List.getElem?_cons_succ] at hu ⊢
            exact hnr i u (by omega) hu hru
        · intro i rid2 s h1 hv hos
          rcases i with _ | (_ | i)
          · omega
          · simp at hv
            rw [hv] at hor
            rw [hor] at hos
            simp at hos
            simp [hos]
          · simp only [List.getElem?_cons_succ] at hv ⊢
            exact hrs i rid2 s (by omega) hv hos
        · intro i rid2 h1 hv hon
          rcases i with _ | (_ | i)
          · omega
          · simp at hv
            rw [hv] at hor
            rw [hon] at hor
            exact absurd hor (by simp)
          · simp only [List.getElem?_cons_succ] at hv ⊢
            exact hrn i rid2 (by omega) hv hon

/-- `fmt.Sprintf("%s: %v", message, err)` renders as the message, a colon and
a space, then the error text. -/
theorem gofmt_sv (m e : String) : gofmt "%s: %v" [.str m, .errv e] = m ++ ": " ++ e := by
  unfold gofmt
  have ht : "%s: %v".toList = ['%', 's', ':', ' ', '%', 'v'] := rfl
  rw [ht]
  simp only [gofmtAux, valueText]
  apply String.ext
  simp [String.toList]

/-! ## The claims -/

/-- C2: for a nil error, each of the three `CheckErr` variants returns false
immediately — no record written, no heap touched, the caller's slice as it
was — for every termination flag, message, context sequence, global state and
(for the `log/log.go` variant) fuel. -/
theorem checkErr_nil_error_no_effect (g : GlobalState) (p : Bool)
    (message : String) (kvs : List Value) (st : LogState) (fuel : Nat) :
    golog.CheckErr g none message p st = (.ok false, st)
    ∧ logu.CheckErr g none p message kvs st = (.ok false, kvs, st)
    ∧ logpkg.checkErrFuel g fuel none p message kvs st = some (.ok false, st) := by
  refine ⟨rfl, rfl, ?_⟩
  simp [logpkg.checkErrFuel]

/-- C7: `NewLogger true` configures the debug threshold with console encoding,
`NewLogger false` the info threshold with JSON encoding; hence a debug record
is written by a development-mode logger and dropped by a production-mode one,
while info-level records are written by both. -/
theorem newLogger_mode_config (msg : String) (kvs : List Value) (st : LogState) :
    NewLoggerConfig true = { level := .debug, encoding := "console", development := true }
    ∧ NewLoggerConfig false = { level := .info, encoding := "json", development := false }
    ∧ NewLogger true = .ok ⟨{ level := .debug, encoding := "console", development := true }⟩
    ∧ NewLogger false = .ok ⟨{ level := .info, encoding := "json", development := false }⟩
    ∧ enabled (NewLoggerConfig true) .debug = true
    ∧ enabled (NewLoggerConfig false) .debug = false
    ∧ enabled (NewLoggerConfig false) .info = true
    ∧ enabled (NewLoggerConfig false) .warn = true
    ∧ enabled (NewLoggerConfig false) .error = true
    ∧ enabled (NewLoggerConfig false) .fatal = true
    ∧ Debug (mkInit true) msg kvs st
        = (.ok, { st with records := st.records ++ [⟨.debug, msg, kvs⟩] })
    ∧ Debug (mkInit false) msg kvs st = (.ok, st)
    ∧ Info (mkInit true) msg kvs st
        = (.ok, { st with records := st.records ++ [⟨.info, msg, kvs⟩] })
    ∧ Info (mkInit false) msg kvs st
        = (.ok, { st with records := st.records ++ [⟨.info, msg, kvs⟩] }) := by
  refine ⟨rfl, rfl, rfl, rfl, rfl, rfl, rfl, rfl, rfl, rfl, ?_, ?_, ?_, ?_⟩ <;>
    simp [Debug, Info, GetLogger, mkInit, InitLogger, initialGlobal, NewLogger, emit, enabled,
      NewLoggerConfig, NewDevelopmentConfig, NewProductionConfig, levelNat]

/-- C8: the singleton guard — after the first `InitLogger d` at process start,
any further sequence of `InitLogger` calls, with any flags, leaves the global
state exactly as the first call left it, and `GetLogger` returns the handle
the first call built from its flag. -/
theorem initLogger_once (d : Bool) (ds : List Bool) :
    List.foldl (fun g d2 => InitLogger d2 g) (InitLogger d initialGlobal) ds
      = InitLogger d initialGlobal
    ∧ GetLogger (InitLogger d initialGlobal) = some ⟨NewLoggerConfig d⟩ := by
  constructor
  · induction ds with
    | nil => rfl
    | cons d2 ds ih =>
      have h1 : InitLogger d2 (InitLogger d initialGlobal) = InitLogger d initialGlobal := rfl
      simpa [h1] using ih
  · rfl

/-- C9: before any `InitLogger` completes, `GetLogger` returns nil, and each
package-level logging function — and every `CheckErr` variant given a non-nil
error — dereferences that nil handle and panics. -/
theorem uninitialized_logger_panics (msg template e : String)
    (kvs args : List Value) (st : LogState) (p : Bool) (fuel : Nat) :
    GetLogger initialGlobal = none
    ∧ (Info initialGlobal msg kvs st).1 = .nilDeref
    ∧ (Debug initialGlobal msg kvs st).1 = .nilDeref
    ∧ (Warn initialGlobal msg kvs st).1 = .nilDeref
    ∧ (Error initialGlobal msg kvs st).1 = .nilDeref
    ∧ (Fatal initialGlobal msg kvs st).1 = .nilDeref
    ∧ (Panic initialGlobal msg kvs st).1 = .nilDeref
    ∧ (Debugf initialGlobal template args st).1 = .nilDeref
    ∧ (Infof initialGlobal template args st).1 = .nilDeref
    ∧ (Warnf initialGlobal template args st).1 = .nilDeref
    ∧ (Errorf initialGlobal template args st).1 = .nilDeref
    ∧ (Fatalf initialGlobal template args st).1 = .nilDeref
    ∧ (Panicf initialGlobal template args st).1 = .nilDeref
    ∧ (golog.CheckErr initialGlobal (some e) msg p st).1 = .nilDeref
    ∧ (logu.CheckErr initialGlobal (some e) p msg kvs st).1 = .nilDeref
    ∧ (∀ r, logpkg.checkErrFuel initialGlobal fuel (some e) p msg kvs st = some r →
        r.1 = .nilDeref) := by
  refine ⟨rfl, rfl, rfl, rfl, rfl, rfl, rfl, rfl, rfl, rfl, rfl, rfl, rfl, rfl, ?_, ?_⟩
  · simp only [logu.CheckErr]
    split <;> rfl
  · intro r hr
    cases fuel with
    | zero =>
      simp only [logpkg.checkErrFuel] at hr
      simp at hr
    | succ fuel2 =>
      rcases hl : logpkg.loopFuel initialGlobal fuel2 kvs st with _ | lr
      · simp only [logpkg.checkErrFuel] at hr
        rw [hl] at hr
        simp at hr
      · cases lr with
        | deref st2 =>
          simp only [logpkg.checkErrFuel] at hr
          rw [hl] at hr
          simp at hr
          subst hr
          rfl
        | done nkv st2 =>
          simp only [logpkg.checkErrFuel] at hr
          rw [hl] at hr
          simp [GetLogger, initialGlobal] at hr
          subst hr
          rfl

/-- C1 (amended): with the termination flag disabled and a non-nil error, the
`golog` and `part_000` variants return true and emit exactly one error-level
record carrying the error's text (`part_000` may precede it with
warning-level records for failed dumps), and the `log/log.go` variant does
the same whenever every response dump succeeds; there, a failed dump triggers
a recursive self-call that emits an additional error-level record. -/
theorem checkErr_noterm_single_error_record (d : Bool) (e message : String)
    (kvs : List Value) (st : LogState) (oh : List String)
    (recs : List Record) (fuel : Nat) :
    golog.CheckErr (mkInit d) (some e) message false st
      = (.ok true,
         { st with records := st.records ++ [⟨.error, message ++ ": " ++ e, []⟩] })
    ∧ ((logu.CheckErr (mkInit d) (some e) false message kvs st).1 = .ok true
       ∧ ∃ ws, (logu.CheckErr (mkInit d) (some e) false message kvs st).2.2.records
             = st.records ++ ws
               ++ [⟨.error, message, .str "error" :: .errv e ::
                    (logu.CheckErr (mkInit d) (some e) false message kvs st).2.1⟩]
           ∧ (∀ w ∈ ws, w.level = .warn)
           ∧ countAtLevel .error
               ((logu.CheckErr (mkInit d) (some e) false message kvs st).2.2.records)
             = countAtLevel .error st.records + 1)
    ∧ (∃ nkv, logpkg.checkErrFuel (mkInit d) (fuel + 1) (some e) false message kvs
          ⟨mkOkHeap oh, recs⟩
        = some (.ok true, ⟨mkOkHeap oh,
            recs ++ [⟨.error, message, [.list (.str "error" :: .errv e :: nkv)]⟩]⟩)) := by
  have hg : GetLogger (mkInit d) = some ⟨NewLoggerConfig d⟩ := rfl
  refine ⟨?_, ?_, ?_⟩
  · simp only [golog.CheckErr, hg]
    rw [gofmt_sv]
    simp [emit, enabled_error d]
  · obtain ⟨kvs2, st2, ws, hp, hrec, hws, hlen⟩ :=
      logu_processPairs_general ⟨NewLoggerConfig d⟩
        (if kvs.length % 2 ≠ 0 then kvs ++ [.str "<missing value>"] else kvs) st
    have hcall : logu.CheckErr (mkInit d) (some e) false message kvs st
        = (.ok true, kvs2, emit ⟨NewLoggerConfig d⟩ st2 .error message
            (.str "error" :: .errv e :: kvs2)) := by
      simp only [logu.CheckErr, hg, hp]
      simp
    rw [hcall]
    refine ⟨rfl, ws, ?_, hws, ?_⟩
    · rw [emit_records, hrec]
      simp [enabled_error d]
    · rw [emit_records, hrec]
      simp only [enabled_error d, if_true]
      rw [List.append_assoc, countAtLevel_append, countAtLevel_append,
        countAtLevel_of_none .error ws (fun w hw => by rw [hws w hw]; simp)]
      simp [countAtLevel]
  · obtain ⟨nkv, hl, _, _, _, _, _⟩ :=
      logpkg_loopFuel_okHeap (mkInit d) oh kvs fuel ⟨mkOkHeap oh, recs⟩ rfl
    refine ⟨nkv, ?_⟩
    simp only [logpkg.checkErrFuel]
    rw [hl]
    simp only [hg]
    simp [emit, enabled_error d]

/-- C1's counterexample, in the `log/log.go` variant: a non-nil error, flag
disabled, one context pair holding a response whose body read fails once (the
re-dump inside the recursive self-call then sees the drained body and
succeeds).  The call returns true but writes TWO error-level records: the
recursive `CheckErr` reports the dump failure at error level before the main
record goes out. -/
theorem checkErr_logpkg_failed_dump_two_error_records :
    logpkg.checkErrFuel (mkInit false) 2 (some "boom") false "request failed"
      [.str "resp", .resp 0] ⟨[[.fail "read error"]], []⟩
    = some (.ok true, ⟨[[]],
        [⟨.error, "can\x27t dump HTTP response",
          [.list [.str "error", .errv "read error", .str "response", .str ""]]⟩,
         ⟨.error, "request failed",
          [.list [.str "error", .errv "boom", .str "resp",
            .str "Error dumping response: read error"]]⟩]⟩)
    ∧ countAtLevel .error
        [(⟨.error, "can\x27t dump HTTP response",
          [.list [.str "error", .errv "read error", .str "response", .str ""]]⟩ : Record),
         ⟨.error, "request failed",
          [.list [.str "error", .errv "boom", .str "resp",
            .str "Error dumping response: read error"]]⟩] = 2 := by
  constructor
  · simp [logpkg.checkErrFuel, logpkg.loopFuel, dumpResp, dumpScriptStep, mkInit, InitLogger,
      initialGlobal, NewLogger, GetLogger, emit, enabled, NewLoggerConfig, NewProductionConfig,
      levelNat]
  · rfl

/-- C3 (amended): for a non-nil error with the flag unset, `CheckErr` emits
the message at error level and returns true.  With the flag set, the
`part_000` and `log/log.go` variants emit the message at panic level instead
of (not in addition to) error level and panic rather than return; the `golog`
variant emits at DPanic level and then — only on a production configuration,
where DPanic does not panic — also at error level, returning true. -/
theorem checkErr_flag_behavior (d : Bool) (e message : String)
    (kvs : List Value) (st : LogState) (oh : List String)
    (recs : List Record) (fuel : Nat) :
    ((logu.CheckErr (mkInit d) (some e) true message kvs st).1 = .panicked
     ∧ ∃ ws, (logu.CheckErr (mkInit d) (some e) true message kvs st).2.2.records
           = st.records ++ ws
             ++ [⟨.panic, message, .str "error" :: .errv e ::
                  (logu.CheckErr (mkInit d) (some e) true message kvs st).2.1⟩]
         ∧ (∀ w ∈ ws, w.level = .warn)
         ∧ countAtLevel .error
             ((logu.CheckErr (mkInit d) (some e) true message kvs st).2.2.records)
           = countAtLevel .error st.records)
    ∧ (∃ nkv, logpkg.checkErrFuel (mkInit d) (fuel + 1) (some e) true message kvs
          ⟨mkOkHeap oh, recs⟩
        = some (.panicked, ⟨mkOkHeap oh,
            recs ++ [⟨.panic, message, [.list (.str "error" :: .errv e :: nkv)]⟩]⟩))
    ∧ golog.CheckErr (mkInit false) (some e) message true st
        = (.ok true, { st with records := st.records
            ++ [⟨.dpanic, message ++ ": " ++ e, []⟩,
                ⟨.error, message ++ ": " ++ e, []⟩] })
    ∧ golog.CheckErr (mkInit true) (some e) message true st
        = (.panicked,
           { st with records := st.records ++ [⟨.dpanic, message ++ ": " ++ e, []⟩] })
    ∧ golog.CheckErr (mkInit d) (some e) message false st
        = (.ok true,
           { st with records := st.records ++ [⟨.error, message ++ ": " ++ e, []⟩] }) := by
  have hg : GetLogger (mkInit d) = some ⟨NewLoggerConfig d⟩ := rfl
  refine ⟨?_, ?_, ?_, ?_, ?_⟩
  · obtain ⟨kvs2, st2, ws, hp, hrec, hws, hlen⟩ :=
      logu_processPairs_general ⟨NewLoggerConfig d⟩
        (if kvs.length % 2 ≠ 0 then kvs ++ [.str "<missing value>"] else kvs) st
    have hcall : logu.CheckErr (mkInit d) (some e) true message kvs st
        = (.panicked, kvs2, emit ⟨NewLoggerConfig d⟩ st2 .panic message
            (.str "error" :: .errv e :: kvs2)) := by
      simp only [logu.CheckErr, hg, hp]
      simp
    rw [hcall]
    refine ⟨rfl, ws, ?_, hws, ?_⟩
    · rw [emit_records, hrec]
      simp [enabled_panic d]
    · rw [emit_records, hrec]
      simp only [enabled_panic d, if_true]
      rw [List.append_assoc, countAtLevel_append, countAtLevel_append,
        countAtLevel_of_none .error ws (fun w hw => by rw [hws w hw]; simp)]
      simp [countAtLevel]
  · obtain ⟨nkv, hl, _, _, _, _, _⟩ :=
      logpkg_loopFuel_okHeap (mkInit d) oh kvs fuel ⟨mkOkHeap oh, recs⟩ rfl
    refine ⟨nkv, ?_⟩
    simp only [logpkg.checkErrFuel]
    rw [hl]
    simp only [hg]
    simp [emit, enabled_panic d]
  · have hg2 : GetLogger (mkInit false) = some ⟨NewLoggerConfig false⟩ := rfl
    simp only [golog.CheckErr, hg2]
    rw [gofmt_sv]
    simp [emit, enabled, NewLoggerConfig, NewProductionConfig, levelNat]
  · have hg2 : GetLogger (mkInit true) = some ⟨NewLoggerConfig true⟩ := rfl
    simp only [golog.CheckErr, hg2]
    rw [gofmt_sv]
    simp [emit, enabled, NewLoggerConfig, NewDevelopmentConfig, levelNat]
  · simp only [golog.CheckErr, hg]
    rw [gofmt_sv]
    simp [emit, enabled_error d]

/-- C3's counterexample, in the `part_000` variant: non-nil error, flag set,
concrete input.  Exactly one record is written, at panic level; no error-level
record is emitted, and the call panics instead of returning true — the claimed
"both the error-level emission and the panic-level emission" does not happen. -/
theorem checkErr_logu_flag_set_panic_only :
    logu.CheckErr (mkInit false) (some "boom") true "request failed" [] ⟨[], []⟩
      = (.panicked, [],
         ⟨[], [⟨.panic, "request failed", [.str "error", .errv "boom"]⟩]⟩)
    ∧ countAtLevel .error
        [(⟨.panic, "request failed", [.str "error", .errv "boom"]⟩ : Record)] = 0 := by
  exact ⟨rfl, rfl⟩

/-- C4: for a non-nil error, over heaps on which every dump succeeds: in both
dumping variants the emitted record pairs each key with the dump text wherever
the context value was a response, and passes every non-response value through
unchanged (`part_000` directly in the record's field list, `log/log.go`
inside the aggregated payload of its record). -/
theorem checkErr_response_dump_substitution (d : Bool) (e message : String)
    (kvs : List Value) (oh : List String) (recs : List Record) (fuel : Nat) :
    (∃ kvs2, logu.CheckErr (mkInit d) (some e) false message kvs ⟨mkOkHeap oh, recs⟩
        = (.ok true, kvs2,
           ⟨mkOkHeap oh,
            recs ++ [⟨.error, message, .str "error" :: .errv e :: kvs2⟩]⟩)
      ∧ (∀ i, i % 2 = 0 → i < kvs.length → kvs2[i]? = kvs[i]?)
      ∧ (∀ i u, i % 2 = 1 → kvs[i]? = some u → u.isResp = false → kvs2[i]? = some u)
      ∧ (∀ i rid s, i % 2 = 1 → kvs[i]? = some (.resp rid) → oh[rid]? = some s →
          kvs2[i]? = some (.str s)))
    ∧ (∃ nkv, logpkg.checkErrFuel (mkInit d) (fuel + 1) (some e) false message kvs
          ⟨mkOkHeap oh, recs⟩
        = some (.ok true,
            ⟨mkOkHeap oh,
             recs ++ [⟨.error, message, [.list (.str "error" :: .errv e :: nkv)]⟩]⟩)
      ∧ (∀ i, i % 2 = 0 → i < kvs.length → nkv[i]? = kvs[i]?)
      ∧ (∀ i u, i % 2 = 1 → kvs[i]? = some u → u.isResp = false → nkv[i]? = some u)
      ∧ (∀ i rid s, i % 2 = 1 → kvs[i]? = some (.resp rid) → oh[rid]? = some s →
          nkv[i]? = some (.str s))) := by
  have hg : GetLogger (mkInit d) = some ⟨NewLoggerConfig d⟩ := rfl
  constructor
  · obtain ⟨kvs2, hp, hlen, hk, hnr, hrs, hrn⟩ :=
      logu_processPairs_okHeap ⟨NewLoggerConfig d⟩ oh
        (if kvs.length % 2 ≠ 0 then kvs ++ [.str "<missing value>"] else kvs)
        ⟨mkOkHeap oh, recs⟩ rfl
    have hcall : logu.CheckErr (mkInit d) (some e) false message kvs ⟨mkOkHeap oh, recs⟩
        = (.ok true, kvs2, emit ⟨NewLoggerConfig d⟩ ⟨mkOkHeap oh, recs⟩ .error message
            (.str "error" :: .errv e :: kvs2)) := by
      simp only [logu.CheckErr, hg, hp]
      simp
    have hemit : emit (⟨NewLoggerConfig d⟩ : Logger) ⟨mkOkHeap oh, recs⟩ .error message
        (.str "error" :: .errv e :: kvs2)
        = ⟨mkOkHeap oh, recs ++ [⟨.error, message, .str "error" :: .errv e :: kvs2⟩]⟩ := by
      simp [emit, enabled_error d]
    have hle : kvs.length ≤
        (if kvs.length % 2 ≠ 0 then kvs ++ [Value.str "<missing value>"] else kvs).length := by
      split <;> simp
    have hpad : ∀ (i : Nat) (u : Value), kvs[i]? = some u →
        (if kvs.length % 2 ≠ 0 then kvs ++ [Value.str "<missing value>"] else kvs)[i]?
          = some u := by
      intro i u hu
      have hlt := (List.getElem?_eq_some.mp hu).1
      split
      · rw [List.getElem?_append_left hlt]
        exact hu
      · exact hu
    refine ⟨kvs2, by rw [hcall, hemit], ?_, ?_, ?_⟩
    · intro i h0 hi
      have h1 : (if kvs.length % 2 ≠ 0 then kvs ++ [Value.str "<missing value>"] else kvs)[i]?
          = kvs[i]? := by
        split
        · exact List.getElem?_append_left hi
        · rfl
      rw [← h1]
      exact hk i h0 (by omega)
    · intro i u h1 hu hru
      exact hnr i u h1 (hpad i u hu) hru
    · intro i rid s h1 hv hos
      exact hrs i rid s h1 (hpad i (.resp rid) hv) hos
  · obtain ⟨nkv, hl, hlen2, hk2, hnr2, hrs2, hrn2⟩ :=
      logpkg_loopFuel_okHeap (mkInit d) oh kvs fuel ⟨mkOkHeap oh, recs⟩ rfl
    refine ⟨nkv, ?_, hk2, hnr2, hrs2⟩
    simp only [logpkg.checkErrFuel]
    rw [hl]
    simp only [hg]
    simp [emit, enabled_error d]

/-- C4's witness: a production logger, the error "boom", one context pair
whose value is response 0 with dump text "HTTP/1.0 500": the emitted record's
value field is that dump text. -/
theorem checkErr_response_dump_substitution_witness :
    (logu.CheckErr (mkInit false) (some "boom") false "m"
      [.str "resp", .resp 0] ⟨mkOkHeap ["HTTP/1.0 500"], []⟩).2.1[1]?
      = some (.str "HTTP/1.0 500") := by
  obtain ⟨⟨kvs2, hcall, hk, hnr, hrs⟩, _⟩ :=
    checkErr_response_dump_substitution false "boom" "m" [.str "resp", .resp 0]
      ["HTTP/1.0 500"] [] 0
  rw [hcall]
  exact hrs 1 0 "HTTP/1.0 500" (by decide) rfl rfl

/-- C5 (amended): on a failed response dump, the `part_000` variant logs the
dump failure at warning level but keeps the raw response value in the emitted
record — no textual failure description is substituted — while the
`log/log.go` variant substitutes `"Error dumping response: <err>"` but reports
the dump failure at error level, through a recursive self-call, not at warning
level.  Neither variant propagates the dump error. -/
theorem checkErr_dump_failure_handling (d : Bool) (e message e0 : String)
    (k : Value) (tail : List DumpRes) (recs : List Record) :
    logu.CheckErr (mkInit d) (some e) false message [k, .resp 0]
        ⟨[DumpRes.fail e0 :: tail], recs⟩
      = (.ok true, [k, .resp 0],
         ⟨[tail],
          recs ++ [⟨.warn, "Failed to dump HTTP response", [.str "error", .errv e0]⟩,
                   ⟨.error, message, [.str "error", .errv e, k, .resp 0]⟩]⟩)
    ∧ logpkg.checkErrFuel (mkInit false) 2 (some "boom") false "m"
          [.str "r", .resp 0] ⟨[[.fail "read error", .ok "D"]], []⟩
        = some (.ok true, ⟨[[.ok "D"]],
            [⟨.error, "can\x27t dump HTTP response",
              [.list [.str "error", .errv "read error", .str "response", .str "D"]]⟩,
             ⟨.error, "m",
              [.list [.str "error", .errv "boom", .str "r",
                .str "Error dumping response: read error"]]⟩]⟩) := by
  constructor
  · have hg : GetLogger (mkInit d) = some ⟨NewLoggerConfig d⟩ := rfl
    have hp : logu.processPairs (some ⟨NewLoggerConfig d⟩) [k, .resp 0]
        ⟨[DumpRes.fail e0 :: tail], recs⟩
      = ([k, .resp 0],
         ⟨[tail],
          recs ++ [⟨.warn, "Failed to dump HTTP response", [.str "error", .errv e0]⟩]⟩,
         false) := by
      simp [logu.processPairs, dumpResp, dumpScriptStep, emit, enabled_warn d]
    simp only [logu.CheckErr, hg]
    simp [hp, emit, enabled_error d]
  · simp [logpkg.checkErrFuel, logpkg.loopFuel, dumpResp, dumpScriptStep, mkInit, InitLogger,
      initialGlobal, NewLogger, GetLogger, emit, enabled, NewLoggerConfig, NewProductionConfig,
      levelNat]

/-- C5's counterexample, in the `part_000` variant: response 0's dump fails
with "read error".  A warning is logged, but the emitted error record carries
the raw response value `.resp 0` — no textual failure description is
substituted for it. -/
theorem checkErr_logu_dump_failure_keeps_raw_response :
    logu.CheckErr (mkInit false) (some "boom") false "m"
        [.str "response", .resp 0] ⟨[[.fail "read error"]], []⟩
      = (.ok true, [.str "response", .resp 0],
         ⟨[[]],
          [⟨.warn, "Failed to dump HTTP response", [.str "error", .errv "read error"]⟩,
           ⟨.error, "m", [.str "error", .errv "boom", .str "response", .resp 0]⟩]⟩) := rfl

/-- C5's witness: the amended statement at a concrete input — key "resp",
dump error "cannot read body", one remaining script entry. -/
theorem checkErr_dump_failure_handling_witness :
    logu.CheckErr (mkInit true) (some "err text") false "msg"
        [.str "resp", .resp 0] ⟨[DumpRes.fail "cannot read body" :: []], []⟩
      = (.ok true, [.str "resp", .resp 0],
         ⟨[[]],
          [⟨.warn, "Failed to dump HTTP response", [.str "error", .errv "cannot read body"]⟩,
           ⟨.error, "msg",
            [.str "error", .errv "err text", .str "resp", .resp 0]⟩]⟩) := by
  exact (checkErr_dump_failure_handling true "err text" "msg" "cannot read body"
    (.str "resp") [] []).1

/-- C6: the `part_000` variant always emits a well-formed key/value set: the
record's field list is `"error", err` followed by the (padded) context, an
even-length alternating sequence.  The `log/log.go` variant builds the same
well-formed slice but passes it to `Errorw` as ONE argument — its own comment
says "with spread operator", yet the spread is missing — so its emitted
record's field list has length one, not an alternating key/value set. -/
theorem checkErr_kv_set_shape (d : Bool) (e message : String)
    (kvs : List Value) (st : LogState) :
    (∃ ws, (logu.CheckErr (mkInit d) (some e) false message kvs st).2.2.records
         = st.records ++ ws
           ++ [⟨.error, message, .str "error" :: .errv e ::
                (logu.CheckErr (mkInit d) (some e) false message kvs st).2.1⟩]
       ∧ (Value.str "error" :: Value.errv e ::
           (logu.CheckErr (mkInit d) (some e) false message kvs st).2.1).length % 2 = 0)
    ∧ logpkg.checkErrFuel (mkInit false) 1 (some "boom") false "m"
        [.str "k", .str "v"] ⟨[], []⟩
      = some (.ok true, ⟨[],
          [⟨.error, "m", [.list [.str "error", .errv "boom", .str "k", .str "v"]]⟩]⟩)
    ∧ [Value.list [.str "error", .errv "boom", .str "k", .str "v"]].length = 1 := by
  refine ⟨?_, ?_, rfl⟩
  · have hg : GetLogger (mkInit d) = some ⟨NewLoggerConfig d⟩ := rfl
    obtain ⟨kvs2, st2, ws, hp, hrec, hws, hlen⟩ :=
      logu_processPairs_general ⟨NewLoggerConfig d⟩
        (if kvs.length % 2 ≠ 0 then kvs ++ [.str "<missing value>"] else kvs) st
    have hcall : logu.CheckErr (mkInit d) (some e) false message kvs st
        = (.ok true, kvs2, emit ⟨NewLoggerConfig d⟩ st2 .error message
            (.str "error" :: .errv e :: kvs2)) := by
      simp only [logu.CheckErr, hg, hp]
      simp
    rw [hcall]
    refine ⟨ws, ?_, ?_⟩
    · rw [emit_records, hrec]
      simp [enabled_error d]
    · simp only [List.length_cons, hlen]
      split
      · rename_i hodd
        simp only [List.length_append, List.length_cons, List.length_nil]
        omega
      · rename_i heven
        omega
  · simp [logpkg.checkErrFuel, logpkg.loopFuel, mkInit, InitLogger, initialGlobal, NewLogger,
      GetLogger, emit, enabled, NewLoggerConfig, NewProductionConfig, levelNat]

/-- C10 (amended): for a non-nil error and a caller slice passed variadically
at full capacity to the `part_000` variant: when the context length is even,
no padding `append` runs and the loop's writes land in the caller's backing
array — the caller's slice afterwards has each successfully dumped response
value replaced by its dump text and everything else unchanged; when the
length is odd, the padding `append` reallocates and the caller's slice is
left exactly as it was, dumps notwithstanding. -/
theorem checkErr_logu_mutation_visibility (d : Bool) (e message : String)
    (kvs : List Value) (oh : List String) (recs : List Record) :
    (kvs.length % 2 = 0 →
      ((∀ i, i % 2 = 0 → i < kvs.length →
          (logu.callerSliceAfter (mkInit d) (some e) false message kvs
            ⟨mkOkHeap oh, recs⟩)[i]? = kvs[i]?)
       ∧ (∀ i u, i % 2 = 1 → kvs[i]? = some u → u.isResp = false →
          (logu.callerSliceAfter (mkInit d) (some e) false message kvs
            ⟨mkOkHeap oh, recs⟩)[i]? = some u)
       ∧ (∀ i rid s, i % 2 = 1 → kvs[i]? = some (.resp rid) → oh[rid]? = some s →
          (logu.callerSliceAfter (mkInit d) (some e) false message kvs
            ⟨mkOkHeap oh, recs⟩)[i]? = some (.str s))))
    ∧ (kvs.length % 2 = 1 →
        logu.callerSliceAfter (mkInit d) (some e) false message kvs
          ⟨mkOkHeap oh, recs⟩ = kvs) := by
  have hg : GetLogger (mkInit d) = some ⟨NewLoggerConfig d⟩ := rfl
  constructor
  · intro heven
    have hif : (if kvs.length % 2 ≠ 0 then kvs ++ [Value.str "<missing value>"] else kvs)
        = kvs := by simp [heven]
    obtain ⟨kvs2, hp, hlen, hk, hnr, hrs, hrn⟩ :=
      logu_processPairs_okHeap ⟨NewLoggerConfig d⟩ oh
        (if kvs.length % 2 ≠ 0 then kvs ++ [.str "<missing value>"] else kvs)
        ⟨mkOkHeap oh, recs⟩ rfl
    rw [hif] at hp hlen hk hnr hrs hrn
    have hcall : logu.CheckErr (mkInit d) (some e) false message kvs ⟨mkOkHeap oh, recs⟩
        = (.ok true, kvs2, emit ⟨NewLoggerConfig d⟩ ⟨mkOkHeap oh, recs⟩ .error message
            (.str "error" :: .errv e :: kvs2)) := by
      simp only [logu.CheckErr, hg, hif, hp]
      simp
    have hslice : logu.callerSliceAfter (mkInit d) (some e) false message kvs
        ⟨mkOkHeap oh, recs⟩ = kvs2 := by
      simp [logu.callerSliceAfter, heven, hcall]
    rw [hslice]
    exact ⟨hk, hnr, hrs⟩
  · intro hodd
    simp [logu.callerSliceAfter, hodd]

/-- C10's counterexample: an odd-length caller slice (a dangling key after a
response pair) with a response whose dump succeeds.  Inside the call the
response value IS replaced by the dump text — the second conjunct shows the
slice the loop wrote — but the padding `append` reallocated first, so the
caller's slice still holds the raw response after the call returns. -/
theorem checkErr_logu_odd_slice_not_mutated :
    logu.callerSliceAfter (mkInit false) (some "boom") false "m"
        [.str "k", .resp 0, .str "dangling"] ⟨mkOkHeap ["DUMP"], []⟩
      = [.str "k", .resp 0, .str "dangling"]
    ∧ (logu.CheckErr (mkInit false) (some "boom") false "m"
        [.str "k", .resp 0, .str "dangling"] ⟨mkOkHeap ["DUMP"], []⟩).2.1[1]?
      = some (.str "DUMP") := ⟨rfl, rfl⟩

/-- C10's witness: an even-length caller slice whose response value dumps to
"DUMP": after the call the caller's slice holds the dump text at the value
position. -/
theorem checkErr_logu_mutation_visibility_witness :
    (logu.callerSliceAfter (mkInit false) (some "boom") false "m"
      [.str "k", .resp 0] ⟨mkOkHeap ["DUMP"], []⟩)[1]? = some (.str "DUMP") := by
  obtain ⟨heven, _⟩ :=
    checkErr_logu_mutation_visibility false "boom" "m" [.str "k", .resp 0] ["DUMP"] []
  exact (heven (by decide)).2.2 1 0 "DUMP" (by decide) rfl rfl

end Golibs
